import Mathlib

/-!
Verification development for the negotiation orchestration core of the
`cas` shopping-assistant extension.  The definitions below are shallow
embeddings of the TypeScript sources:

* `SessionManager` (session-manager module): durable session store.
* `DiscoveryClient` (discovery-client.ts): seller discovery with retries
  and fallback demo sellers.
* `CrewAIAgent` (crew-ai-agent.ts): the bounded-round negotiation loop and
  the JSON-response parsing of the decision engine.
* `ServiceWorker` (the `ShoppingAssistantServiceWorker` class): the
  orchestrator, modelled as a small-step interleaving transition system so
  that concurrency claims about in-flight tasks can be stated.

Machine numbers are modelled as rationals (`ℚ`), JS `Date` values as
integer epoch instants, and JS truthiness checks (`x || d`, `if (x)`) are
made explicit wherever the source relies on them.
-/

namespace Cas

/-- Models the JS expression `v || d` for an optional numeric `v`:
`undefined` and `0` are falsy and yield the default. -/
def jsOrQ (v : Option ℚ) (d : ℚ) : ℚ :=
  match v with
  | none => d
  | some q => if q = 0 then d else q

/-- Models JS `Math.round` on a rational: floor of `q + 1/2`, as a rational. -/
def jsRound (q : ℚ) : ℚ := ((q + 1/2).floor : ℚ)

/-- A parsed JSON value, as produced by the JS runtime primitive
`JSON.parse`.  Used to model the untyped decision-engine boundary. -/
inductive JsVal where
  | nul : JsVal
  | bool (b : Bool) : JsVal
  | num (q : ℚ) : JsVal
  | str (s : String) : JsVal
  | arr (xs : List JsVal) : JsVal
  | obj (fields : List (String × JsVal)) : JsVal

/-- Session lifecycle status (`'pending' | 'active' | 'completed' | 'failed'`). -/
inductive SessionStatus where
  | pending
  | active
  | completed
  | failed
deriving DecidableEq, Repr

/-- Log-step action kind (`'analyze' | 'offer' | 'counter' | 'accept' | 'reject'`). -/
inductive StepAction where
  | analyze
  | offer
  | counter
  | accept
  | reject
deriving DecidableEq, Repr

/-- One negotiation log entry (interface `NegotiationStep`).  The `Date`
timestamp is an epoch instant. -/
structure NegotiationStep where
  round : Nat
  action : StepAction
  details : JsVal
  timestamp : Int
  reasoning : Option String

/-- Product snapshot (interface `productInfo` of `NegotiationSession`). -/
structure ProductInfo where
  id : String
  name : String
  price : ℚ
  currency : String
  image : String
  seller : String
  url : String
deriving DecidableEq, Repr

/-- Behavior signal (interface `behavior` of `NegotiationSession`). -/
structure Behavior where
  interestScore : ℚ
  dwellTime : ℚ
  priceChecks : Nat
  addToCartAttempts : Nat
deriving DecidableEq, Repr

/-- Negotiation option toggles (`preferences.options`). -/
structure PrefOptions where
  openToBundle : Bool
  interestedInWarranty : Bool
  willingToBuyMultiple : Bool
  flexiblePayment : Bool
deriving DecidableEq, Repr

/-- Strategy tag of user preferences. -/
inductive Strategy where
  | aggressive
  | balanced
  | conservative
  | custom
deriving DecidableEq, Repr

/-- User negotiation preferences (interface `preferences`). -/
structure Preferences where
  desiredDiscount : ℚ
  maxPrice : ℚ
  options : PrefOptions
  strategy : Strategy
  customRequirements : Option String
deriving DecidableEq, Repr

/-- The last agreed-or-proposed terms (`currentOffer`): price, currency and
round count.  The `timestamp: new Date()` bookkeeping field is elided. -/
structure Offer where
  price : ℚ
  currency : String
  rounds : Nat
deriving DecidableEq, Repr

/-- A stored negotiation session (interface `NegotiationSession` of the
session-manager module).  `Date` fields are epoch instants. -/
structure NegotiationSession where
  sessionId : String
  productId : String
  productInfo : ProductInfo
  behavior : Behavior
  preferences : Option Preferences
  status : SessionStatus
  sellerEndpoint : Option String
  currentOffer : Option Offer
  negotiationLog : List NegotiationStep
  startTime : Int
  lastUpdate : Int
  expiresAt : Int

namespace SessionManager

/-- The sessions object store: records keyed by `sessionId` (IndexedDB
`keyPath: 'sessionId'`). -/
abbrev Db := List NegotiationSession

/-- IndexedDB `store.put`: replace the record with the same key, append
when the key is new. -/
def putRecord (db : Db) (s : NegotiationSession) : Db :=
  if db.any (fun t => t.sessionId == s.sessionId) then
    db.map (fun t => if t.sessionId == s.sessionId then s else t)
  else
    db ++ [s]

/-- Models `new Date(x)` applied to a stored `Date`: the structured clone
used by IndexedDB preserves the instant, so revival returns it unchanged. -/
def newDateOf (t : Int) : Int := t

/-- The `sessionToSave` record of `SessionManager.saveSession`: the spread
copy that re-lists the date fields and maps over the log entry-by-entry. -/
def sessionToSave (session : NegotiationSession) : NegotiationSession :=
  { session with
    startTime := session.startTime
    lastUpdate := session.lastUpdate
    expiresAt := session.expiresAt
    negotiationLog := session.negotiationLog.map (fun step =>
      { step with timestamp := step.timestamp }) }

/-- `SessionManager.saveSession`: `store.put(sessionToSave)`. -/
def saveSession (db : Db) (session : NegotiationSession) : Db :=
  putRecord db (sessionToSave session)

/-- The date-restoration applied by `SessionManager.getSession` on a found
record: each date field is rebuilt with `new Date(...)` and the log is
mapped entry-by-entry in order. -/
def restoreSession (s : NegotiationSession) : NegotiationSession :=
  { s with
    startTime := newDateOf s.startTime
    lastUpdate := newDateOf s.lastUpdate
    expiresAt := newDateOf s.expiresAt
    negotiationLog := s.negotiationLog.map (fun step =>
      { step with timestamp := newDateOf step.timestamp }) }

/-- `SessionManager.getSession`: `store.get(sessionId)`; a missing record
resolves to `null` (here `none`), never an exception. -/
def getSession (db : Db) (sessionId : String) : Option NegotiationSession :=
  (db.find? (fun t => t.sessionId == sessionId)).map restoreSession

/-- `SessionManager.getActiveSessions`: the `status` index is read for
`'active'` then `'pending'`, the two result lists are concatenated, dates
are restored, and expired sessions (`expiresAt ≤ now`) are filtered out at
read time. -/
def getActiveSessions (db : Db) (now : Int) : List NegotiationSession :=
  ((db.filter (fun s => s.status == SessionStatus.active)
      ++ db.filter (fun s => s.status == SessionStatus.pending)).map
    restoreSession).filter (fun s => now < s.expiresAt)

/-- `SessionManager.cleanupExpiredSessions`: a cursor over the `expiresAt`
index bounded above by `now` (inclusive) deletes every matching record and
counts the deletions.  Returns the surviving store and the count. -/
def cleanupExpiredSessions (db : Db) (now : Int) : Db × Nat :=
  (db.filter (fun s => ¬ s.expiresAt ≤ now),
   (db.filter (fun s => s.expiresAt ≤ now)).length)

/-- Aggregate statistics (interface `SessionStats`). -/
structure SessionStats where
  totalSessions : Nat
  activeSessions : Nat
  completedSessions : Nat
  successRate : ℚ
  averageNegotiationTime : ℚ
  totalSavings : ℚ
deriving DecidableEq, Repr

/-- The per-session contribution to `totalSavings` in
`SessionManager.getSessionStats`: sessions with a current offer and a
truthy (non-zero) product price contribute `savings > 0 ? savings : 0`. -/
def savingsContrib (s : NegotiationSession) : ℚ :=
  match s.currentOffer with
  | some o =>
      if s.productInfo.price = 0 then 0
      else if 0 < s.productInfo.price - o.price then s.productInfo.price - o.price else 0
  | none => 0

/-- `SessionManager.getSessionStats`: aggregates over all stored sessions
whose `expiresAt` is still in the future.  (`s.startTime && s.lastUpdate`
filters nothing because `Date` objects are always truthy.) -/
def getSessionStats (db : Db) (now : Int) : SessionStats :=
  let validSessions := db.filter (fun s => now < s.expiresAt)
  let activeSessions := validSessions.filter
    (fun s => s.status == SessionStatus.active || s.status == SessionStatus.pending)
  let completedSessions := validSessions.filter (fun s => s.status == SessionStatus.completed)
  let completedWithTime := completedSessions
  let totalTime := completedWithTime.foldl
    (fun sum s => sum + ((s.lastUpdate - s.startTime : Int) : ℚ)) 0
  let averageTime :=
    if 0 < completedWithTime.length then totalTime / (completedWithTime.length : ℚ) else 0
  let totalSavings := completedSessions.foldl (fun sum s => sum + savingsContrib s) 0
  { totalSessions := validSessions.length
    activeSessions := activeSessions.length
    completedSessions := completedSessions.length
    successRate :=
      if 0 < validSessions.length then
        (completedSessions.length : ℚ) / (validSessions.length : ℚ)
      else 0
    averageNegotiationTime := averageTime
    totalSavings := totalSavings }

end SessionManager

namespace DiscoveryClient

/-- Seller metadata block (interface `SellerEndpoint.metadata`). -/
structure SellerMeta where
  rating : ℚ
  averageResponseTime : ℚ
  successRate : ℚ
  specialties : List String
  supportedPayments : List String
  shippingRegions : List String
deriving DecidableEq, Repr

/-- Seller contact block (interface `SellerEndpoint.contact`). -/
structure SellerContact where
  email : Option String
  website : Option String
  supportUrl : Option String
deriving DecidableEq, Repr

/-- A discovered seller (interface `SellerEndpoint`). -/
structure SellerEndpoint where
  sellerId : String
  sellerName : String
  mcpEndpoint : String
  apiKey : Option String
  capabilities : List String
  metadata : SellerMeta
  contact : SellerContact
deriving DecidableEq, Repr

/-- Search criteria (interface `SellerSearchCriteria`).  Absent fields are
`none`; JS falsiness of present-but-zero / present-but-empty values is
handled at each use site. -/
structure SellerSearchCriteria where
  productId : Option String
  category : Option String
  priceRange : Option (ℚ × ℚ)
  location : Option String
  specialty : Option String
  minRating : Option ℚ
  maxResponseTime : Option ℚ
deriving DecidableEq, Repr

/-- The `mcp_connection` sub-object of a raw registry record. -/
structure RawConnection where
  endpointUrl : String
  apiKey : Option String
deriving DecidableEq, Repr

/-- An untrusted registry record, as deserialized from the discovery
response.  Missing JSON fields are `none`; string fields record the empty
string for falsy values. -/
structure RawSeller where
  sellerId : String
  sellerName : String
  mcpConnection : Option RawConnection
  capabilities : Option (List String)
  rating : Option ℚ
  responseTimeMinutes : Option ℚ
  successRate : Option ℚ
  specialties : Option (List String)
  metaSupportedPayments : Option (List String)
  metaShippingRegions : Option (List String)
  contactEmail : Option String
  websiteUrl : Option String
  supportUrl : Option String
deriving DecidableEq, Repr

/-- `DiscoveryClient.validateSellerEndpoint`: a record is kept only when
`seller_id`, `seller_name` and `mcp_connection.endpoint_url` are truthy
(non-empty) and `capabilities` is present as an array (an empty array is
truthy in JS and passes). -/
def validateSellerEndpoint (s : RawSeller) : Bool :=
  s.sellerId ≠ "" && s.sellerName ≠ "" &&
    (match s.mcpConnection with
     | some c => c.endpointUrl ≠ ""
     | none => false) &&
    s.capabilities.isSome

/-- `DiscoveryClient.normalizeSellerEndpoint`.  `seller.rating || 0` and
`seller.success_rate || 0.5` collapse absent (and zero) values to the
default; `seller.response_time_minutes * 60 * 1000 || 5000` yields `5000`
both for an absent field (`NaN`) and for a zero product. -/
def normalizeSellerEndpoint (s : RawSeller) : SellerEndpoint :=
  { sellerId := s.sellerId
    sellerName := s.sellerName
    mcpEndpoint := (match s.mcpConnection with
                    | some c => c.endpointUrl
                    | none => "")
    apiKey := s.mcpConnection.bind (fun c => c.apiKey)
    capabilities := s.capabilities.getD []
    metadata :=
      { rating := jsOrQ s.rating 0
        averageResponseTime := jsOrQ (s.responseTimeMinutes.map (· * 60 * 1000)) 5000
        successRate := jsOrQ s.successRate (1/2)
        specialties := s.specialties.getD []
        supportedPayments := s.metaSupportedPayments.getD ["credit_card"]
        shippingRegions := s.metaShippingRegions.getD ["US"] }
    contact :=
      { email := s.contactEmail
        website := s.websiteUrl
        supportUrl := s.supportUrl } }

/-- The filter predicate of `DiscoveryClient.filterSellers`: a seller is
dropped when a truthy `minRating` exceeds its rating, a truthy
`maxResponseTime` is below its average response time, or a truthy
`specialty` is not among its specialties.  Capability filtering is
deliberately not performed. -/
def passesFilter (criteria : SellerSearchCriteria) (s : SellerEndpoint) : Bool :=
  (match criteria.minRating with
   | some r => if r = 0 then true else decide (r ≤ s.metadata.rating)
   | none => true) &&
  (match criteria.maxResponseTime with
   | some t => if t = 0 then true else decide (s.metadata.averageResponseTime ≤ t)
   | none => true) &&
  (match criteria.specialty with
   | some sp => if sp = "" then true else s.metadata.specialties.contains sp
   | none => true)

/-- `DiscoveryClient.filterSellers`. -/
def filterSellers (sellers : List SellerEndpoint) (criteria : SellerSearchCriteria) :
    List SellerEndpoint :=
  sellers.filter (passesFilter criteria)

/-- `DiscoveryClient.calculateSellerScore`: composite score
`0.4·rating + 0.3·successRate + 0.2·max(0, 1 − avgResponseTime/10000)
 + 0.1·specialtyMatch + 0.02·(advanced capabilities present)`. -/
def calculateSellerScore (s : SellerEndpoint) (criteria : SellerSearchCriteria) : ℚ :=
  let base := s.metadata.rating * (4/10) + s.metadata.successRate * (3/10)
  let responseTimeScore := max 0 (1 - s.metadata.averageResponseTime / 10000)
  let specialtyBonus :=
    match criteria.specialty with
    | some sp => if sp ≠ "" && s.metadata.specialties.contains sp then (1/10 : ℚ) else 0
    | none => 0
  let advancedCaps := ["getProductInfo", "checkDealStatus", "acceptDeal"]
  let capabilityBonus :=
    ((advancedCaps.filter (fun c => s.capabilities.contains c)).length : ℚ) * (2/100)
  base + responseTimeScore * (2/10) + specialtyBonus + capabilityBonus

/-- `DiscoveryClient.sortSellers`: the JS stable `Array.sort` with
comparator `scoreB − scoreA`, i.e. a stable sort placing higher composite
scores first. -/
def sortSellers (sellers : List SellerEndpoint) (criteria : SellerSearchCriteria) :
    List SellerEndpoint :=
  sellers.insertionSort
    (fun a b => calculateSellerScore b criteria ≤ calculateSellerScore a criteria)

/-- `DiscoveryClient.searchSellers`, with the external registry modelled by
the per-attempt fetch outcomes: `none` is a failed attempt (network error,
timeout, non-OK status, or a response without a `sellers` array); `some`
is an OK response whose records are validated and normalized, dropping
invalid entries.  The retry loop takes the first successful attempt; when
every attempt fails the last error is thrown (`none`). -/
def searchSellers : List (Option (List RawSeller)) → Option (List SellerEndpoint)
  | [] => none
  | none :: rest => searchSellers rest
  | some raws :: _ =>
      some ((raws.filter validateSellerEndpoint).map normalizeSellerEndpoint)

/-- The first built-in demo fallback seller. -/
def demoSeller1 : SellerEndpoint :=
  { sellerId := "demo-seller-001"
    sellerName := "Demo Electronics Store"
    mcpEndpoint := "wss://demo-seller.example.com/mcp"
    apiKey := none
    capabilities := ["initiateNegotiation", "makeOffer", "getProductInfo", "acceptDeal"]
    metadata :=
      { rating := 42/10
        averageResponseTime := 2000
        successRate := 75/100
        specialties := ["electronics", "computers"]
        supportedPayments := ["credit_card", "paypal"]
        shippingRegions := ["US", "CA"] }
    contact :=
      { email := some "support@demo-seller.example.com"
        website := some "https://demo-seller.example.com"
        supportUrl := none } }

/-- The second built-in demo fallback seller. -/
def demoSeller2 : SellerEndpoint :=
  { sellerId := "demo-seller-002"
    sellerName := "Budget Deals Outlet"
    mcpEndpoint := "wss://budget-deals.example.com/mcp"
    apiKey := none
    capabilities := ["initiateNegotiation", "makeOffer", "acceptDeal"]
    metadata :=
      { rating := 38/10
        averageResponseTime := 3500
        successRate := 65/100
        specialties := ["home_garden", "electronics"]
        supportedPayments := ["credit_card"]
        shippingRegions := ["US"] }
    contact :=
      { email := some "deals@budget-deals.example.com"
        website := some "https://budget-deals.example.com"
        supportUrl := none } }

/-- The built-in demo fallback sellers (`getFallbackSellers`). -/
def fallbackSellers : List SellerEndpoint := [demoSeller1, demoSeller2]

/-- `DiscoveryClient.getFallbackSellers`: the demo sellers are filtered by
the criteria (note: filtered, not sorted, by the source). -/
def getFallbackSellers (criteria : SellerSearchCriteria) : List SellerEndpoint :=
  filterSellers fallbackSellers criteria

/-- `DiscoveryClient.findSellers` on a cache miss (`cached` is the cache
lookup result).  On a successful registry search the results run through
`filterSellers` then `sortSellers`; when the search throws (all retries
exhausted), the fallback sellers are substituted if any survive the
filter, otherwise the error is rethrown (`none`). -/
def findSellers (cached : Option (List SellerEndpoint))
    (criteria : SellerSearchCriteria)
    (attempts : List (Option (List RawSeller))) : Option (List SellerEndpoint) :=
  match cached with
  | some cachedSellers => some cachedSellers
  | none =>
      match searchSellers attempts with
      | some sellers => some (sortSellers (filterSellers sellers criteria) criteria)
      | none =>
          let fallback := getFallbackSellers criteria
          if 0 < fallback.length then some fallback else none

end DiscoveryClient

/-- `needle` starts the list `hay`. -/
def charsStartWith : List Char → List Char → Bool
  | [], _ => true
  | _ :: _, [] => false
  | a :: as, b :: bs => a == b && charsStartWith as bs

/-- `needle` occurs somewhere inside `hay`. -/
def charsContain (needle : List Char) : List Char → Bool
  | [] => needle.isEmpty
  | c :: rest => charsStartWith needle (c :: rest) || charsContain needle rest

/-- Substring containment on strings. -/
def strContains (needle hay : String) : Bool :=
  charsContain needle.data hay.data

namespace CrewAIAgent

/-- `CrewAIAgent.parseJSONResponse`, with the JS primitive `JSON.parse`
(applied to the regex-extracted braces span of the backend response text)
modelled by its outcome `parsed`: `none` when no JSON value could be
parsed (the catch branch), `some j` for the parsed value.  A parsed value
is returned as-is, with no shape validation; only the catch branch yields
the fallback. -/
def parseJSONResponse (parsed : Option JsVal) (fallback : JsVal) : JsVal :=
  match parsed with
  | some j => j
  | none => fallback

/-- The fallback value of `CrewAIAgent.analyzeNegotiationOpportunity`. -/
def opportunityFallback : JsVal :=
  JsVal.obj [("shouldNegotiate", JsVal.bool false),
             ("reasoning", JsVal.str "Failed to analyze opportunity")]

/-- The fallback value of `CrewAIAgent.analyzeOffer`. -/
def offerFallback : JsVal :=
  JsVal.obj [("decision", JsVal.str "reject"),
             ("reasoning", JsVal.str "Failed to analyze offer"),
             ("confidence", JsVal.num 0)]

/-- The parse-or-default step of `CrewAIAgent.analyzeNegotiationOpportunity`
on the raw backend response (the no-preferences path that consults the
reasoning backend). -/
def analyzeOpportunityResult (parsed : Option JsVal) : JsVal :=
  parseJSONResponse parsed opportunityFallback

/-- The parse-or-default step of `CrewAIAgent.analyzeOffer` on the raw
backend response. -/
def analyzeOfferResult (parsed : Option JsVal) : JsVal :=
  parseJSONResponse parsed offerFallback

/-- Modelled from the spec: the expected structured shape of an
`evaluateOffer` backend response — an object whose `decision` field is one
of the three decision strings and whose `confidence` field is a number.
Used only to state the shape-validation claim; the source performs no such
check. -/
def isExpectedOfferShape (j : JsVal) : Bool :=
  match j with
  | JsVal.obj fields =>
      (match (fields.lookup "decision") with
       | some (JsVal.str d) => d == "accept" || d == "reject" || d == "counter"
       | _ => false) &&
      (match (fields.lookup "confidence") with
       | some (JsVal.num _) => true
       | _ => false)
  | _ => false

/-- A decision-engine next action (interface `LLMResponse.nextAction`). -/
structure NextAction where
  actionType : String
  price : Option ℚ
  quantity : Option ℚ
  message : Option String
deriving DecidableEq, Repr

/-- A decision-engine response (interface `LLMResponse`).  At runtime the
`decision` field is an arbitrary string from parsed JSON, so it is a
`String` here; the loop switches on it. -/
structure LLMResponse where
  decision : String
  reasoning : String
  nextAction : Option NextAction
  confidence : ℚ
deriving DecidableEq, Repr

/-- A seller offer as exchanged over MCP (an untyped payload of which the
loop reads `.price`). -/
structure SellerOffer where
  price : ℚ
deriving DecidableEq, Repr

/-- One entry of the agent's in-memory negotiation log.  The `action`
string is `decision === 'continue' ? 'counter' : decision` for loop
entries and `'analyze'` for the round-0 entry; the `Date` timestamp and
the opaque `details` payload are elided. -/
structure AgentStep where
  round : Nat
  action : String
  reasoning : String
deriving DecidableEq, Repr

/-- The final offer of a successful result (interface
`NegotiationResult.finalOffer`). -/
structure FinalOffer where
  price : ℚ
  currency : String
  savings : ℚ
  discountPercent : ℚ
  rounds : Nat
deriving DecidableEq, Repr

/-- The outcome of `CrewAIAgent.executeNegotiation` (interface
`NegotiationResult`). -/
structure AgentResult where
  success : Bool
  finalOffer : Option FinalOffer
  reason : Option String
  savings : Option ℚ
  negotiationLog : List AgentStep
deriving DecidableEq, Repr

/-- The environment of one `CrewAIAgent.executeNegotiation` run: the
configuration, the product context, the decision engine (`analyzeOffer`
as a function of the round and the history) and the MCP counterpart's
responses. -/
structure AgentEnv where
  maxNegotiationRounds : Nat
  productPrice : ℚ
  productCurrency : String
  engine : Nat → List AgentStep → LLMResponse
  productInfoOk : Bool
  initialOffer : Option SellerOffer
  acceptOk : SellerOffer → Bool
  counterOffer : Nat → Option SellerOffer

/-- The round-limit failure reason produced when the loop exhausts
`maxNegotiationRounds`: `Maximum negotiation rounds (N) reached`. -/
def maxRoundsReason (n : Nat) : String :=
  "Maximum negotiation rounds (" ++ toString n ++ ") reached"

/-- The `while (currentRound <= maxNegotiationRounds)` loop of
`CrewAIAgent.executeNegotiation`.  `remaining` counts the loop iterations
still allowed (`maxNegotiationRounds − round + 1`); at each round the
engine decides, a log step is appended, and the decision is dispatched:
accept invokes `acceptDeal`, reject stops, counter/continue invokes
`makeOffer` and recurses with the returned counter-offer, and any other
decision string is an unknown-decision failure. -/
def negotiationRounds (env : AgentEnv) :
    Nat → Nat → SellerOffer → List AgentStep → AgentResult
  | 0, _, _, log =>
      { success := false
        finalOffer := none
        reason := some (maxRoundsReason env.maxNegotiationRounds)
        savings := none
        negotiationLog := log }
  | remaining + 1, round, offer, log =>
      let d := env.engine round log
      let log' := log ++
        [{ round := round
           action := if d.decision == "continue" then "counter" else d.decision
           reasoning := d.reasoning }]
      if d.decision == "accept" then
        if env.acceptOk offer then
          let savings := env.productPrice - offer.price
          { success := true
            finalOffer := some
              { price := offer.price
                currency := env.productCurrency
                savings := savings
                discountPercent := savings / env.productPrice * 100
                rounds := round }
            reason := none
            savings := some savings
            negotiationLog := log' }
        else
          { success := false, finalOffer := none
            reason := some "Failed to accept deal"
            savings := none, negotiationLog := log' }
      else if d.decision == "reject" then
        { success := false, finalOffer := none
          reason := some d.reasoning
          savings := none, negotiationLog := log' }
      else if d.decision == "counter" || d.decision == "continue" then
        match d.nextAction with
        | none =>
            { success := false, finalOffer := none
              reason := some "AI failed to provide next action"
              savings := none, negotiationLog := log' }
        | some _ =>
            match env.counterOffer round with
            | none =>
                { success := false, finalOffer := none
                  reason := some "Failed to make counter offer"
                  savings := none, negotiationLog := log' }
            | some newOffer => negotiationRounds env remaining (round + 1) newOffer log'
      else
        { success := false, finalOffer := none
          reason := some "Unknown AI decision"
          savings := none, negotiationLog := log' }

/-- `CrewAIAgent.executeNegotiation`: the round-0 analysis step, the
product-info and initiation calls, then the round loop starting at round 1
with `maxNegotiationRounds` iterations allowed. -/
def executeNegotiation (env : AgentEnv)
    (shouldNegotiate : Bool) (analysisReasoning : String) : AgentResult :=
  let log0 : List AgentStep :=
    [{ round := 0, action := "analyze", reasoning := analysisReasoning }]
  if ¬ shouldNegotiate then
    { success := false, finalOffer := none
      reason := some analysisReasoning
      savings := none, negotiationLog := log0 }
  else if ¬ env.productInfoOk then
    { success := false, finalOffer := none
      reason := some "Failed to get product information from seller"
      savings := none, negotiationLog := log0 }
  else
    match env.initialOffer with
    | none =>
        { success := false, finalOffer := none
          reason := some "Failed to initiate negotiation with seller"
          savings := none, negotiationLog := log0 }
    | some offer0 => negotiationRounds env env.maxNegotiationRounds 1 offer0 log0

end CrewAIAgent

namespace ServiceWorker

/-- The external outcome of one negotiation task's real-flow attempt
(discovery, MCP connect, `initiateNegotiation`): `ok` carries the bound
seller endpoint and the remote `data?.finalPrice` (absent when the remote
reply lacks it); `fail` is any thrown error on that path. -/
inductive RealFlow where
  | ok (endpoint : String) (finalPrice : Option ℚ)
  | fail
deriving DecidableEq, Repr

/-- Program counter of an in-flight `executeNegotiation` task.  Suspension
points split the body into three atomic blocks: `activate` (set status
`active`, persist; then the 3s delay), `discover` (the real
discovery/negotiation attempt; on failure, broadcast fallback and suspend
for the 2s mock delay), and `fallbackCompute` (compute the simulated
outcome and perform the terminal write). -/
inductive TaskPc where
  | activate
  | discover
  | fallbackCompute
deriving DecidableEq, Repr

/-- An in-flight asynchronous `executeNegotiation` invocation. -/
structure WTask where
  sid : Nat
  pc : TaskPc
  realFlow : RealFlow
deriving DecidableEq, Repr

/-- Ghost record of outward broadcasts relevant to the claims: the
`broadcastNegotiationUpdate(sessionId, 'fallback', …)` message emitted on
the fallback path (a transient runtime message, not a persisted log entry). -/
inductive WEvent where
  | fallbackBroadcast (sid : Nat)
deriving DecidableEq, Repr

/-- A worker-side negotiation session (interface `NegotiationSession` of
the service worker).  `crypto.randomUUID()` session ids are modelled as
fresh naturals; the `Date` bookkeeping fields (`startTime`, `lastUpdate`,
`expiresAt`) are elided, as no worker claim depends on them. -/
structure WSession where
  sid : Nat
  price : ℚ
  currency : String
  preferences : Option Preferences
  status : SessionStatus
  sellerEndpoint : Option String
  currentOffer : Option Offer
  negotiationLog : List NegotiationStep

/-- A freshly created session as built by `startNegotiation`: status
`pending`, empty log, no offer. -/
def newWSession (sid : Nat) (price : ℚ) (currency : String)
    (prefs : Option Preferences) : WSession :=
  { sid := sid
    price := price
    currency := currency
    preferences := prefs
    status := SessionStatus.pending
    sellerEndpoint := none
    currentOffer := none
    negotiationLog := [] }

/-- `session.preferences?.desiredDiscount || 15`. -/
def fallbackTargetDiscount (prefs : Option Preferences) : ℚ :=
  jsOrQ (prefs.map (·.desiredDiscount)) 15

/-- The simulated final price of the fallback branch of
`executeNegotiation`: `savings = Math.round(price · discount/100)`, then
`min(maxPrice, price − savings)` when a truthy `maxPrice` preference is
set, else `price − savings`. -/
def fallbackFinalPrice (price : ℚ) (prefs : Option Preferences) : ℚ :=
  let savings := jsRound (price * (fallbackTargetDiscount prefs / 100))
  match prefs with
  | some p => if p.maxPrice = 0 then price - savings else min p.maxPrice (price - savings)
  | none => price - savings

/-- One atomic block of an in-flight `executeNegotiation` task: the
updated session, the continuation task (`none` when the invocation is
done) and the broadcasts emitted.  Every terminal write is unconditional:
no block re-reads or re-checks the session's current status. -/
def taskStep (s : WSession) (t : WTask) : WSession × Option WTask × List WEvent :=
  match t.pc with
  | TaskPc.activate =>
      ({ s with status := SessionStatus.active }, some { t with pc := TaskPc.discover }, [])
  | TaskPc.discover =>
      match t.realFlow with
      | RealFlow.ok endpoint finalPriceData =>
          let finalPrice := jsOrQ finalPriceData (s.price * (85/100))
          ({ s with
              sellerEndpoint := some endpoint
              status := SessionStatus.completed
              currentOffer := some
                { price := finalPrice, currency := s.currency, rounds := 3 } },
           none, [])
      | RealFlow.fail =>
          (s, some { t with pc := TaskPc.fallbackCompute }, [WEvent.fallbackBroadcast t.sid])
  | TaskPc.fallbackCompute =>
      ({ s with
          status := SessionStatus.completed
          currentOffer := some
            { price := fallbackFinalPrice s.price s.preferences
              currency := s.currency
              rounds := 3 } },
       none, [])

/-- A full, uninterleaved `executeNegotiation` run: the task's atomic
blocks composed to completion (three blocks suffice on every path),
returning the final session and the broadcasts. -/
def runWorkerNegotiation (s : WSession) (rf : RealFlow) : WSession × List WEvent :=
  let r1 := taskStep s { sid := s.sid, pc := TaskPc.activate, realFlow := rf }
  match r1.2.1 with
  | none => (r1.1, r1.2.2)
  | some t1 =>
      let r2 := taskStep r1.1 t1
      match r2.2.1 with
      | none => (r2.1, r1.2.2 ++ r2.2.2)
      | some t2 =>
          let r3 := taskStep r2.1 t2
          (r3.1, r1.2.2 ++ r2.2.2 ++ r3.2.2)

/-- The orchestrator state: the session map (the in-memory
`activeSessions` map, kept in sync with the store by `updateSession`), the
in-flight tasks, the fresh-id source backing `crypto.randomUUID()`, and
the ghost broadcast log. -/
structure WorkerState where
  sessions : List WSession
  tasks : List WTask
  nextId : Nat
  events : List WEvent

/-- `activeSessions.get(sessionId)`. -/
def lookupSession (sessions : List WSession) (sid : Nat) : Option WSession :=
  sessions.find? (fun s => s.sid == sid)

/-- `activeSessions.set(sessionId, session)` (keyed overwrite). -/
def updateSessionMap (sessions : List WSession) (s : WSession) : List WSession :=
  if sessions.any (fun t => t.sid == s.sid) then
    sessions.map (fun t => if t.sid == s.sid then s else t)
  else
    sessions ++ [s]

/-- `startNegotiation`: a fresh session id is generated, a `pending`
session is stored, and the round loop is started as a detached
asynchronous task.  No check for an existing in-flight task is made. -/
def startResult (st : WorkerState) (price : ℚ) (currency : String)
    (prefs : Option Preferences) (rf : RealFlow) : WorkerState :=
  { sessions := updateSessionMap st.sessions (newWSession st.nextId price currency prefs)
    tasks := st.tasks ++ [{ sid := st.nextId, pc := TaskPc.activate, realFlow := rf }]
    nextId := st.nextId + 1
    events := st.events }

/-- `handleDealAction(sessionId, 'reject')`: the found session's status is
set to `failed` and persisted. -/
def rejectResult (st : WorkerState) (s : WSession) : WorkerState :=
  { st with sessions := updateSessionMap st.sessions { s with status := SessionStatus.failed } }

/-- `handleDealAction(sessionId, 'counter')`: `executeNegotiation` is
invoked again on the found session, i.e. another task for the same
session id starts, with no in-flight check. -/
def counterResult (st : WorkerState) (s : WSession) (rf : RealFlow) : WorkerState :=
  { st with tasks := st.tasks ++ [{ sid := s.sid, pc := TaskPc.activate, realFlow := rf }] }

/-- `retryNegotiation`: reset the found session to `pending`, clear its
log, persist, and restart the negotiation as a fresh detached task. -/
def retryResult (st : WorkerState) (s : WSession) (rf : RealFlow) : WorkerState :=
  { st with
    sessions := updateSessionMap st.sessions
      { s with status := SessionStatus.pending, negotiationLog := [] }
    tasks := st.tasks ++ [{ sid := s.sid, pc := TaskPc.activate, realFlow := rf }] }

/-- Replace task `i` with its continuation, or remove it when done. -/
def updateTasks (tasks : List WTask) (i : Nat) : Option WTask → List WTask
  | some t => tasks.set i t
  | none => tasks.eraseIdx i

/-- One scheduler step of in-flight task `i` against the current session
map. -/
def taskRunResult (st : WorkerState) (i : Nat) (t : WTask) (s : WSession) : WorkerState :=
  { sessions := updateSessionMap st.sessions (taskStep s t).1
    tasks := updateTasks st.tasks i (taskStep s t).2.1
    nextId := st.nextId
    events := st.events ++ (taskStep s t).2.2 }

/-- The orchestrator's small-step transition relation, interleaving the
message handlers (`start_negotiation`, `deal_action` reject/counter,
`RETRY_NEGOTIATION`) with the atomic blocks of in-flight tasks. -/
inductive WStep : WorkerState → WorkerState → Prop where
  | start (st : WorkerState) (price : ℚ) (currency : String)
      (prefs : Option Preferences) (rf : RealFlow) :
      WStep st (startResult st price currency prefs rf)
  | rejectAction (st : WorkerState) (sid : Nat) (s : WSession)
      (h : lookupSession st.sessions sid = some s) :
      WStep st (rejectResult st s)
  | counterAction (st : WorkerState) (sid : Nat) (s : WSession) (rf : RealFlow)
      (h : lookupSession st.sessions sid = some s) :
      WStep st (counterResult st s rf)
  | retryAction (st : WorkerState) (sid : Nat) (s : WSession) (rf : RealFlow)
      (h : lookupSession st.sessions sid = some s) :
      WStep st (retryResult st s rf)
  | taskRun (st : WorkerState) (i : Nat) (t : WTask) (s : WSession)
      (ht : st.tasks.get? i = some t)
      (hs : lookupSession st.sessions t.sid = some s) :
      WStep st (taskRunResult st i t s)

/-- The sub-relation of `WStep` consisting only of in-flight task steps:
no message handler (in particular no operator retry) runs. -/
inductive TaskOnlyStep : WorkerState → WorkerState → Prop where
  | taskRun (st : WorkerState) (i : Nat) (t : WTask) (s : WSession)
      (ht : st.tasks.get? i = some t)
      (hs : lookupSession st.sessions t.sid = some s) :
      TaskOnlyStep st (taskRunResult st i t s)

/-- The orchestrator's startup state: no sessions, no tasks. -/
def workerInit : WorkerState :=
  { sessions := [], tasks := [], nextId := 0, events := [] }

/-- Reachability from startup under the orchestrator semantics. -/
def WReachable (st : WorkerState) : Prop :=
  Relation.ReflTransGen WStep workerInit st

/-- One row of the `getActiveDeals` projection. -/
structure DealView where
  sessionId : Nat
  originalPrice : ℚ
  currentOffer : ℚ
  status : String
  rounds : Nat
deriving DecidableEq, Repr

/-- `mapSessionStatusToDealStatus`. -/
def mapSessionStatusToDealStatus : SessionStatus → String
  | SessionStatus.pending => "negotiating"
  | SessionStatus.active => "negotiating"
  | SessionStatus.completed => "deal_ready"
  | SessionStatus.failed => "failed"

/-- `getActiveDeals`: sessions with status pending/active/completed are
projected; `currentOffer?.price || productInfo.price` and
`currentOffer?.rounds || 0` supply the displayed offer price and round
count. -/
def getActiveDeals (sessions : List WSession) : List DealView :=
  (sessions.filter (fun s =>
      s.status == SessionStatus.pending || s.status == SessionStatus.active ||
        s.status == SessionStatus.completed)).map
    (fun s =>
      { sessionId := s.sid
        originalPrice := s.price
        currentOffer := jsOrQ (s.currentOffer.map (·.price)) s.price
        status := mapSessionStatusToDealStatus s.status
        rounds := (s.currentOffer.map (·.rounds)).getD 0 })

/-- The deal record persisted by `acceptDeal` via
`storageManager.recordSuccessfulDeal`: `savings` is the raw difference
`productInfo.price − currentOffer.price`, with no flooring. -/
structure DealRecord where
  sessionId : Nat
  originalPrice : ℚ
  finalPrice : ℚ
  savings : ℚ
deriving DecidableEq, Repr

/-- `acceptDeal` on a found session: throws (`none`) when no offer is
available, otherwise records the deal with the raw savings difference. -/
def acceptDeal (s : WSession) : Option DealRecord :=
  match s.currentOffer with
  | none => none
  | some o =>
      some { sessionId := s.sid
             originalPrice := s.price
             finalPrice := o.price
             savings := s.price - o.price }

end ServiceWorker

/-! ### Concrete instances used by witnesses and counterexamples -/

/-- A demo product snapshot. -/
def demoProduct : ProductInfo :=
  { id := "prod-1", name := "Widget", price := 100, currency := "USD"
    image := "img", seller := "Acme", url := "https://example.com/widget" }

/-- A demo behavior signal. -/
def demoBehavior : Behavior :=
  { interestScore := 9/10, dwellTime := 120, priceChecks := 3, addToCartAttempts := 1 }

/-- Demo user preferences: 20% desired discount, hard cap 70. -/
def demoPreferences : Preferences :=
  { desiredDiscount := 20, maxPrice := 70
    options := { openToBundle := false, interestedInWarranty := false
                 willingToBuyMultiple := false, flexiblePayment := false }
    strategy := Strategy.balanced, customRequirements := none }

/-- A demo stored session. -/
def demoSession : NegotiationSession :=
  { sessionId := "sess-1", productId := "prod-1"
    productInfo := demoProduct, behavior := demoBehavior
    preferences := none, status := SessionStatus.active
    sellerEndpoint := none
    currentOffer := some { price := 80, currency := "USD", rounds := 2 }
    negotiationLog :=
      [{ round := 0, action := StepAction.analyze, details := JsVal.nul
         timestamp := 1000, reasoning := some "analysis" },
       { round := 1, action := StepAction.counter, details := JsVal.nul
         timestamp := 2000, reasoning := none }]
    startTime := 1000, lastUpdate := 2000, expiresAt := 5000 }

/-- An expired demo session (`expiresAt` in the past relative to `now = 5000`). -/
def expiredSession : NegotiationSession :=
  { demoSession with sessionId := "sess-expired", expiresAt := 4000 }

/-- The orchestrator run used against claim C7: a real-flow success whose
remote final price (120) exceeds the product price (100). -/
def overpricedRun : ServiceWorker.WSession :=
  (ServiceWorker.runWorkerNegotiation
    (ServiceWorker.newWSession 0 100 "USD" none)
    (ServiceWorker.RealFlow.ok "wss://seller.example.com/mcp" (some 120))).1

/-- A fresh worker session used by the fallback-path examples. -/
def freshWorkerSession : ServiceWorker.WSession :=
  ServiceWorker.newWSession 0 100 "USD" none

/-- Trace state: one `start_negotiation` handled from startup
(product price 100, no preferences, real flow doomed to fail). -/
def traceAfterStart : ServiceWorker.WorkerState :=
  ServiceWorker.startResult ServiceWorker.workerInit 100 "USD" none
    ServiceWorker.RealFlow.fail

/-- The task spawned by that start. -/
def traceTask0 : ServiceWorker.WTask :=
  { sid := 0, pc := ServiceWorker.TaskPc.activate, realFlow := ServiceWorker.RealFlow.fail }

/-- Trace state: the spawned task has run its first atomic block (session
active, task suspended at the 3-second delay). -/
def traceAfterActivate : ServiceWorker.WorkerState :=
  ServiceWorker.taskRunResult traceAfterStart 0 traceTask0 freshWorkerSession

/-- The session as it stands while the task is suspended. -/
def traceActiveSession : ServiceWorker.WSession :=
  { freshWorkerSession with status := SessionStatus.active }

/-- Trace state for C1: a `deal_action: counter` arrives for session 0
while its original task is still in flight, spawning a second task. -/
def traceTwoLoops : ServiceWorker.WorkerState :=
  ServiceWorker.counterResult traceAfterActivate traceActiveSession
    ServiceWorker.RealFlow.fail

/-- Trace state for C2: the user manually rejects session 0 while the task
is suspended; the session becomes `failed` (terminal). -/
def traceAfterReject : ServiceWorker.WorkerState :=
  ServiceWorker.rejectResult traceAfterActivate traceActiveSession

/-- The rejected session. -/
def traceFailedSession : ServiceWorker.WSession :=
  { freshWorkerSession with status := SessionStatus.failed }

/-- The suspended task, resumed: its discovery attempt fails. -/
def traceTaskDiscover : ServiceWorker.WTask :=
  { sid := 0, pc := ServiceWorker.TaskPc.discover, realFlow := ServiceWorker.RealFlow.fail }

/-- Trace state: the in-flight task's discovery block has run after the
manual reject (fallback broadcast emitted, task suspended at the 2s delay). -/
def traceAfterDiscover : ServiceWorker.WorkerState :=
  ServiceWorker.taskRunResult traceAfterReject 0 traceTaskDiscover traceFailedSession

/-- The task at its final block. -/
def traceTaskFallback : ServiceWorker.WTask :=
  { sid := 0, pc := ServiceWorker.TaskPc.fallbackCompute
    realFlow := ServiceWorker.RealFlow.fail }

/-- Trace state for C2: the task's terminal write has run, overwriting the
user's reject with `completed`. -/
def traceOverwritten : ServiceWorker.WorkerState :=
  ServiceWorker.taskRunResult traceAfterDiscover 0 traceTaskFallback traceFailedSession

/-- A decision engine that counters on every round, always supplying a
next action. -/
def alwaysCounterEngine : Nat → List CrewAIAgent.AgentStep → CrewAIAgent.LLMResponse :=
  fun _ _ =>
    { decision := "counter"
      reasoning := "keep pushing"
      nextAction := some { actionType := "price_offer", price := some 60
                           quantity := none, message := some "deal?" }
      confidence := 8/10 }

/-- A concrete agent environment for the round-cap scenario: 5 rounds,
always-counter engine, every remote call succeeding. -/
def roundCapEnv : CrewAIAgent.AgentEnv :=
  { maxNegotiationRounds := 5
    productPrice := 100
    productCurrency := "USD"
    engine := alwaysCounterEngine
    productInfoOk := true
    initialOffer := some { price := 90 }
    acceptOk := fun _ => true
    counterOffer := fun _ => some { price := 80 } }

/-- A backend reply that parses as JSON but has none of the expected
fields. -/
def badOfferJson : JsVal := JsVal.obj [("hello", JsVal.num 1)]

/-- A fresh worker session carrying explicit preferences. -/
def prefWorkerSession : ServiceWorker.WSession :=
  ServiceWorker.newWSession 1 100 "USD" (some demoPreferences)

/-- Search criteria with every field absent. -/
def demoCriteria : DiscoveryClient.SellerSearchCriteria :=
  { productId := none, category := none, priceRange := none
    location := none, specialty := none, minRating := none, maxResponseTime := none }

/-! ### Session-store lemmas -/

theorem sessionToSave_eq (s : NegotiationSession) :
    SessionManager.sessionToSave s = s := by
  have hmap : s.negotiationLog.map
      (fun step => { step with timestamp := step.timestamp }) = s.negotiationLog :=
    List.map_id' s.negotiationLog
  unfold SessionManager.sessionToSave
  rw [hmap]

theorem restoreSession_eq (s : NegotiationSession) :
    SessionManager.restoreSession s = s := by
  have hmap : s.negotiationLog.map
      (fun step => { step with timestamp := SessionManager.newDateOf step.timestamp }) =
      s.negotiationLog :=
    List.map_id' s.negotiationLog
  unfold SessionManager.restoreSession
  rw [hmap]
  rfl

theorem find?_update_self (db : List NegotiationSession) (s : NegotiationSession)
    (h : db.any (fun t => t.sessionId == s.sessionId) = true) :
    (db.map (fun t => if t.sessionId == s.sessionId then s else t)).find?
      (fun t => t.sessionId == s.sessionId) = some s := by
  induction db with
  | nil => simp at h
  | cons hd tl ih =>
      rw [List.any_cons] at h
      simp only [List.map_cons]
      by_cases hhd : (hd.sessionId == s.sessionId) = true
      · rw [if_pos hhd]
        exact List.find?_cons_of_pos _ (beq_self_eq_true s.sessionId)
      · have htl : tl.any (fun t => t.sessionId == s.sessionId) = true := by
          revert h
          cases hb : hd.sessionId == s.sessionId
          · simp
          · exact absurd hb hhd
        rw [if_neg hhd]
        have hskip : List.find? (fun t => t.sessionId == s.sessionId)
            (hd :: List.map (fun t => if t.sessionId == s.sessionId then s else t) tl) =
            List.find? (fun t => t.sessionId == s.sessionId)
              (List.map (fun t => if t.sessionId == s.sessionId then s else t) tl) :=
          List.find?_cons_of_neg _ hhd
        rw [hskip]
        exact ih htl

theorem find?_append_self (db : List NegotiationSession) (s : NegotiationSession)
    (h : db.any (fun t => t.sessionId == s.sessionId) = false) :
    (db ++ [s]).find? (fun t => t.sessionId == s.sessionId) = some s := by
  rw [List.find?_append]
  have hnone : db.find? (fun t => t.sessionId == s.sessionId) = none := by
    refine List.find?_eq_none.2 ?_
    intro x hx hpx
    have hany : db.any (fun t => t.sessionId == s.sessionId) = true :=
      List.any_eq_true.2 ⟨x, hx, hpx⟩
    rw [h] at hany
    cases hany
  rw [hnone]
  simp

theorem getSession_saveSession (db : SessionManager.Db) (s : NegotiationSession) :
    SessionManager.getSession (SessionManager.saveSession db s) s.sessionId = some s := by
  unfold SessionManager.getSession SessionManager.saveSession
  rw [sessionToSave_eq]
  unfold SessionManager.putRecord
  split
  · rename_i h
    rw [find?_update_self db s h]
    simp [restoreSession_eq]
  · rename_i h
    have h' : db.any (fun t => t.sessionId == s.sessionId) = false := by
      revert h; cases db.any (fun t => t.sessionId == s.sessionId) <;> simp
    rw [find?_append_self db s h']
    simp [restoreSession_eq]

/-- C5: a stored session whose `expiresAt` lies in the past (relative to
read time `now`) never appears in `getActiveSessions` regardless of its
status, and `cleanupExpiredSessions` removes every expired row, the count
it returns accounting exactly for the removed rows. -/
theorem c5_expiry_filter_and_cleanup (db : SessionManager.Db) (now : Int)
    (s : NegotiationSession) (hpast : s.expiresAt < now) :
    s ∉ SessionManager.getActiveSessions db now ∧
    s ∉ (SessionManager.cleanupExpiredSessions db now).1 ∧
    (SessionManager.cleanupExpiredSessions db now).1.length +
        (SessionManager.cleanupExpiredSessions db now).2 = db.length := by
  refine ⟨?_, ?_, ?_⟩
  · intro hs
    have h := (List.mem_filter.1 hs).2
    simp only [decide_eq_true_eq] at h
    omega
  · intro hs
    have h := (List.mem_filter.1 hs).2
    simp only [decide_eq_true_eq] at h
    omega
  · have h := List.length_eq_length_filter_add
      (l := db) (fun r => decide (r.expiresAt ≤ now))
    unfold SessionManager.cleanupExpiredSessions
    simp only [decide_not] at *
    omega

/-- Closed witness for C5 at a concrete store and clock. -/
theorem c5_witness :
    expiredSession.expiresAt < 5000 ∧
    (expiredSession ∉
        SessionManager.getActiveSessions [expiredSession, demoSession] 5000 ∧
      expiredSession ∉
        (SessionManager.cleanupExpiredSessions [expiredSession, demoSession] 5000).1 ∧
      (SessionManager.cleanupExpiredSessions [expiredSession, demoSession] 5000).1.length +
          (SessionManager.cleanupExpiredSessions [expiredSession, demoSession] 5000).2 =
        ([expiredSession, demoSession] : SessionManager.Db).length) :=
  ⟨by decide,
   c5_expiry_filter_and_cleanup [expiredSession, demoSession] 5000 expiredSession
     (by decide)⟩

/-- C6: `save` followed by `get` returns the session deep-equal to the
input — every field, the log entries in order, and the date fields as
instants — and `get` of an unknown id is an explicit `none`, not an
exception. -/
theorem c6_save_get_roundtrip (db : SessionManager.Db) (s : NegotiationSession)
    (id : String) (hid : ∀ t ∈ db, t.sessionId ≠ id) :
    SessionManager.getSession (SessionManager.saveSession db s) s.sessionId = some s ∧
    SessionManager.getSession db id = none := by
  refine ⟨getSession_saveSession db s, ?_⟩
  unfold SessionManager.getSession
  have h : db.find? (fun t => t.sessionId == id) = none :=
    List.find?_eq_none.2 (fun x hx => by simpa using hid x hx)
  rw [h]
  rfl

/-- Closed witness for C6 at a concrete store, session and unknown id. -/
theorem c6_witness :
    (∀ t ∈ ([demoSession] : SessionManager.Db), t.sessionId ≠ "missing") ∧
    (SessionManager.getSession
        (SessionManager.saveSession [demoSession] demoSession) demoSession.sessionId =
      some demoSession ∧
      SessionManager.getSession [demoSession] "missing" = none) := by
  have hid : ∀ t ∈ ([demoSession] : SessionManager.Db), t.sessionId ≠ "missing" := by
    intro t ht
    rw [List.mem_singleton] at ht
    subst ht
    decide
  exact ⟨hid, c6_save_get_roundtrip [demoSession] demoSession "missing" hid⟩

/-! ### Savings (claim C7) -/

theorem savingsContrib_nonneg (s : NegotiationSession) :
    0 ≤ SessionManager.savingsContrib s := by
  unfold SessionManager.savingsContrib
  cases s.currentOffer with
  | none => exact le_refl 0
  | some o =>
      dsimp only
      split_ifs with h1 h2
      · exact le_refl 0
      · linarith
      · exact le_refl 0

theorem foldl_savings_nonneg (l : List NegotiationSession) (a : ℚ) (ha : 0 ≤ a) :
    0 ≤ l.foldl (fun sum s => sum + SessionManager.savingsContrib s) a := by
  induction l generalizing a with
  | nil => exact ha
  | cons hd tl ih =>
      refine ih _ ?_
      show 0 ≤ a + SessionManager.savingsContrib hd
      have := savingsContrib_nonneg hd
      linarith

theorem savingsContrib_eq_max (s : NegotiationSession) (o : Offer)
    (ho : s.currentOffer = some o) (hp : s.productInfo.price ≠ 0) :
    SessionManager.savingsContrib s = max 0 (s.productInfo.price - o.price) := by
  unfold SessionManager.savingsContrib
  rw [ho]
  dsimp only
  rw [if_neg hp]
  rcases le_or_lt (s.productInfo.price - o.price) 0 with h | h
  · rw [if_neg (not_lt.2 h)]
    exact (max_eq_left h).symm
  · rw [if_pos h]
    exact (max_eq_right (le_of_lt h)).symm

/-- C7 (amended): the aggregate `totalSavings` of `getSessionStats` floors
each completed session's savings at zero — the per-session contribution is
exactly `max 0 (productRef.price − currentOffer.price)` whenever an offer
is recorded and the price is truthy, so the aggregate is never negative —
but `acceptDeal` records the raw difference `price − offer.price` with no
floor, so a negative savings value can be persisted in a recorded deal. -/
theorem c7_savings_amended (db : SessionManager.Db) (now : Int)
    (ws : ServiceWorker.WSession) (o : Offer)
    (ho : ws.currentOffer = some o) :
    0 ≤ (SessionManager.getSessionStats db now).totalSavings ∧
    (∀ s o', s.currentOffer = some o' → s.productInfo.price ≠ 0 →
      SessionManager.savingsContrib s = max 0 (s.productInfo.price - o'.price)) ∧
    (ServiceWorker.acceptDeal ws).map ServiceWorker.DealRecord.savings =
      some (ws.price - o.price) := by
  refine ⟨?_, fun s o' h1 h2 => savingsContrib_eq_max s o' h1 h2, ?_⟩
  · unfold SessionManager.getSessionStats
    dsimp only
    exact foldl_savings_nonneg _ _ (le_refl 0)
  · unfold ServiceWorker.acceptDeal
    rw [ho]
    rfl

theorem overpricedRun_eq :
    overpricedRun =
      { sid := 0, price := 100, currency := "USD", preferences := none
        status := SessionStatus.completed
        sellerEndpoint := some "wss://seller.example.com/mcp"
        currentOffer := some { price := 120, currency := "USD", rounds := 3 }
        negotiationLog := [] } := by
  unfold overpricedRun ServiceWorker.runWorkerNegotiation
  norm_num [ServiceWorker.taskStep, ServiceWorker.newWSession, jsOrQ]

/-- Closed witness for the amended C7 at a concrete store and session. -/
theorem c7_witness :
    overpricedRun.currentOffer = some { price := 120, currency := "USD", rounds := 3 } ∧
    (0 ≤ (SessionManager.getSessionStats [demoSession] 0).totalSavings ∧
      (∀ s o', s.currentOffer = some o' → s.productInfo.price ≠ 0 →
        SessionManager.savingsContrib s = max 0 (s.productInfo.price - o'.price)) ∧
      (ServiceWorker.acceptDeal overpricedRun).map ServiceWorker.DealRecord.savings =
        some (overpricedRun.price - 120)) := by
  have ho : overpricedRun.currentOffer =
      some { price := 120, currency := "USD", rounds := 3 } := by
    rw [overpricedRun_eq]
  exact ⟨ho, c7_savings_amended [demoSession] 0 overpricedRun
    { price := 120, currency := "USD", rounds := 3 } ho⟩

/-- C7 counterexample: a `completed` orchestrator run whose
remote-negotiated final price (120) exceeds the product price (100) is
recorded by `acceptDeal` with savings −20 — not
`max 0 (productRef.price − currentOffer.price) = 0` as the claim states. -/
theorem c7_counterexample :
    overpricedRun.status = SessionStatus.completed ∧
    (ServiceWorker.acceptDeal overpricedRun).map ServiceWorker.DealRecord.savings =
      some (-20) ∧
    ((-20 : ℚ) ≠ max 0 (overpricedRun.price - 120)) := by
  rw [overpricedRun_eq]
  refine ⟨rfl, ?_, ?_⟩
  · norm_num [ServiceWorker.acceptDeal]
  · have h1 : (100 : ℚ) - 120 = -20 := by norm_num
    rw [h1, max_eq_left (by norm_num : (-20 : ℚ) ≤ 0)]
    norm_num

/-! ### Decision-engine parsing (claim C9) -/

/-- C9 (amended): only a backend response that fails JSON extraction and
parsing collapses to the safe default — `shouldNegotiate: false` for the
opportunity assessment and `decision: reject` with confidence 0 for offer
evaluation; a response that parses as JSON is returned as-is, with no
validation of its shape. -/
theorem c9_parse_default_amended :
    (CrewAIAgent.analyzeOpportunityResult none = CrewAIAgent.opportunityFallback ∧
      CrewAIAgent.analyzeOfferResult none = CrewAIAgent.offerFallback) ∧
    (∀ j : JsVal, CrewAIAgent.analyzeOpportunityResult (some j) = j ∧
      CrewAIAgent.analyzeOfferResult (some j) = j) :=
  ⟨⟨rfl, rfl⟩, fun _ => ⟨rfl, rfl⟩⟩

/-- C9 counterexample: a backend reply that parses as JSON but is not of
the expected structured shape is NOT collapsed to the safe reject default;
`analyzeOffer` returns the unvalidated parsed value. -/
theorem c9_counterexample :
    CrewAIAgent.isExpectedOfferShape badOfferJson = false ∧
    CrewAIAgent.analyzeOfferResult (some badOfferJson) = badOfferJson ∧
    CrewAIAgent.analyzeOfferResult (some badOfferJson) ≠ CrewAIAgent.offerFallback := by
  refine ⟨rfl, rfl, ?_⟩
  intro h
  simp only [CrewAIAgent.analyzeOfferResult, CrewAIAgent.parseJSONResponse, badOfferJson,
    CrewAIAgent.offerFallback, JsVal.obj.injEq, List.cons.injEq, Prod.mk.injEq] at h
  exact absurd h.1.1 (by decide)

/-! ### The agent round loop (claim C3) -/

theorem negotiationRounds_always_counter (env : CrewAIAgent.AgentEnv)
    (hdec : ∀ r log, (env.engine r log).decision = "counter")
    (hact : ∀ r log, (env.engine r log).nextAction.isSome = true)
    (hcnt : ∀ r, (env.counterOffer r).isSome = true) :
    ∀ remaining round offer log,
      (CrewAIAgent.negotiationRounds env remaining round offer log).success = false ∧
      (CrewAIAgent.negotiationRounds env remaining round offer log).reason =
        some (CrewAIAgent.maxRoundsReason env.maxNegotiationRounds) ∧
      (CrewAIAgent.negotiationRounds env remaining round offer log).negotiationLog.map
          (fun st => st.round) =
        log.map (fun st => st.round) ++ List.range' round remaining := by
  intro remaining
  induction remaining with
  | zero =>
      intro round offer log
      refine ⟨rfl, rfl, ?_⟩
      simp [CrewAIAgent.negotiationRounds]
  | succ n ih =>
      intro round offer log
      obtain ⟨na, hna⟩ := Option.isSome_iff_exists.1 (hact round log)
      obtain ⟨co, hco⟩ := Option.isSome_iff_exists.1 (hcnt round)
      have hstep : CrewAIAgent.negotiationRounds env (n + 1) round offer log =
          CrewAIAgent.negotiationRounds env n (round + 1) co
            (log ++ [{ round := round, action := "counter"
                       reasoning := (env.engine round log).reasoning }]) := by
        simp only [CrewAIAgent.negotiationRounds, hdec round log, hna, hco]
        rfl
      rw [hstep]
      refine ⟨(ih (round + 1) co _).1, (ih (round + 1) co _).2.1, ?_⟩
      rw [(ih (round + 1) co _).2.2]
      rw [List.map_append, List.range'_succ, List.append_assoc]
      rfl

/-- C3 (amended): a decision engine that returns `counter` on every round
(always supplying a next action), against a remote that always returns a
counter-offer, drives `executeNegotiation` through rounds
1..maxNegotiationRounds exactly — the log's round tags are 0, 1, ...,
maxNegotiationRounds and no round beyond that runs — and the result is a
failure whose reason is the string `Maximum negotiation rounds (N)
reached` (which does not contain "round limit"). -/
theorem c3_round_cap_amended (env : CrewAIAgent.AgentEnv) (reasoning0 : String)
    (offer0 : CrewAIAgent.SellerOffer)
    (hdec : ∀ r log, (env.engine r log).decision = "counter")
    (hact : ∀ r log, (env.engine r log).nextAction.isSome = true)
    (hcnt : ∀ r, (env.counterOffer r).isSome = true)
    (hpi : env.productInfoOk = true)
    (h0 : env.initialOffer = some offer0) :
    (CrewAIAgent.executeNegotiation env true reasoning0).success = false ∧
    (CrewAIAgent.executeNegotiation env true reasoning0).reason =
      some (CrewAIAgent.maxRoundsReason env.maxNegotiationRounds) ∧
    (CrewAIAgent.executeNegotiation env true reasoning0).negotiationLog.map
        (fun st => st.round) =
      List.range (env.maxNegotiationRounds + 1) := by
  have hrun : CrewAIAgent.executeNegotiation env true reasoning0 =
      CrewAIAgent.negotiationRounds env env.maxNegotiationRounds 1 offer0
        [{ round := 0, action := "analyze", reasoning := reasoning0 }] := by
    simp only [CrewAIAgent.executeNegotiation, hpi, h0]
    rfl
  have hloop := negotiationRounds_always_counter env hdec hact hcnt
    env.maxNegotiationRounds 1 offer0
    [{ round := 0, action := "analyze", reasoning := reasoning0 }]
  rw [hrun]
  refine ⟨hloop.1, hloop.2.1, ?_⟩
  rw [hloop.2.2]
  rw [List.range_eq_range', List.range'_succ]
  rfl

/-- Closed witness for the amended C3 at the concrete environment. -/
theorem c3_witness :
    (CrewAIAgent.executeNegotiation roundCapEnv true "analysis").success = false ∧
    (CrewAIAgent.executeNegotiation roundCapEnv true "analysis").reason =
      some (CrewAIAgent.maxRoundsReason roundCapEnv.maxNegotiationRounds) ∧
    (CrewAIAgent.executeNegotiation roundCapEnv true "analysis").negotiationLog.map
        (fun st => st.round) =
      List.range (roundCapEnv.maxNegotiationRounds + 1) :=
  c3_round_cap_amended roundCapEnv "analysis" { price := 90 }
    (fun _ _ => rfl) (fun _ _ => rfl) (fun _ => rfl) rfl rfl

/-- C3 counterexample: with `maxNegotiationRounds = 5` and an
always-counter engine, the failure reason is the exact string
`Maximum negotiation rounds (5) reached`, which does not contain the
substring "round limit" that the claim requires. -/
theorem c3_counterexample :
    (CrewAIAgent.executeNegotiation roundCapEnv true "analysis").reason =
      some "Maximum negotiation rounds (5) reached" ∧
    strContains "round limit" "Maximum negotiation rounds (5) reached" = false := by
  exact ⟨rfl, by decide⟩

/-! ### Orchestrator fallback and round count (claims C4 and C8) -/

theorem runWorker_fail_eq (s : ServiceWorker.WSession) :
    ServiceWorker.runWorkerNegotiation s ServiceWorker.RealFlow.fail =
      ({ s with
          status := SessionStatus.completed
          currentOffer := some
            { price := ServiceWorker.fallbackFinalPrice s.price s.preferences
              currency := s.currency
              rounds := 3 } },
       [ServiceWorker.WEvent.fallbackBroadcast s.sid]) := rfl

theorem runWorker_ok_eq (s : ServiceWorker.WSession) (ep : String) (fp : Option ℚ) :
    ServiceWorker.runWorkerNegotiation s (ServiceWorker.RealFlow.ok ep fp) =
      ({ s with
          sellerEndpoint := some ep
          status := SessionStatus.completed
          currentOffer := some
            { price := jsOrQ fp (s.price * (85/100))
              currency := s.currency
              rounds := 3 } },
       []) := rfl

/-- C4 (amended): whenever the real discovery/connection path fails, the
orchestrator does not fail the session: it computes a locally simulated
outcome from the preferences (desired discount percentage, or the fixed
15% default), clamps the final price to a truthy `maxPrice`, marks the
session `completed`, and broadcasts a 'fallback'-tagged status update.
However no log entry is persisted: the session's `negotiationLog` is left
exactly as it was, so no fallback-tagged entry exists in the log — the
only fallback tag is the transient broadcast. -/
theorem c4_fallback_amended (s : ServiceWorker.WSession) :
    (ServiceWorker.runWorkerNegotiation s ServiceWorker.RealFlow.fail).1.status =
      SessionStatus.completed ∧
    (ServiceWorker.runWorkerNegotiation s ServiceWorker.RealFlow.fail).1.negotiationLog =
      s.negotiationLog ∧
    (ServiceWorker.runWorkerNegotiation s ServiceWorker.RealFlow.fail).2 =
      [ServiceWorker.WEvent.fallbackBroadcast s.sid] ∧
    (ServiceWorker.runWorkerNegotiation s ServiceWorker.RealFlow.fail).1.currentOffer =
      some { price := ServiceWorker.fallbackFinalPrice s.price s.preferences
             currency := s.currency
             rounds := 3 } ∧
    (∀ p : Preferences, s.preferences = some p → p.maxPrice ≠ 0 →
      ServiceWorker.fallbackFinalPrice s.price s.preferences ≤ p.maxPrice) ∧
    (s.preferences = none →
      ServiceWorker.fallbackFinalPrice s.price s.preferences =
        s.price - jsRound (s.price * (15 / 100))) := by
  refine ⟨rfl, rfl, rfl, rfl, ?_, ?_⟩
  · intro p hp hmax
    unfold ServiceWorker.fallbackFinalPrice
    rw [hp]
    dsimp only
    rw [if_neg hmax]
    exact min_le_left _ _
  · intro hp
    unfold ServiceWorker.fallbackFinalPrice ServiceWorker.fallbackTargetDiscount
    rw [hp]
    rfl

/-- Closed witness for the amended C4 at concrete sessions with and
without preferences. -/
theorem c4_witness :
    ((ServiceWorker.runWorkerNegotiation prefWorkerSession
          ServiceWorker.RealFlow.fail).1.status = SessionStatus.completed ∧
      ServiceWorker.fallbackFinalPrice prefWorkerSession.price
          prefWorkerSession.preferences ≤ 70) ∧
    ServiceWorker.fallbackFinalPrice freshWorkerSession.price
        freshWorkerSession.preferences =
      freshWorkerSession.price - jsRound (freshWorkerSession.price * (15 / 100)) := by
  have h1 := c4_fallback_amended prefWorkerSession
  have h2 := c4_fallback_amended freshWorkerSession
  refine ⟨⟨h1.1, ?_⟩, h2.2.2.2.2.2 rfl⟩
  have hle := h1.2.2.2.2.1 demoPreferences rfl (by norm_num [demoPreferences])
  simpa [demoPreferences] using hle

/-- C4 counterexample: a failed discovery run on a fresh session produces
a `completed` session whose persisted negotiation log is empty — it
contains no entry at all, in particular none tagged fallback/simulated. -/
theorem c4_counterexample :
    (ServiceWorker.runWorkerNegotiation freshWorkerSession
        ServiceWorker.RealFlow.fail).1.status = SessionStatus.completed ∧
    (ServiceWorker.runWorkerNegotiation freshWorkerSession
        ServiceWorker.RealFlow.fail).1.negotiationLog = [] :=
  ⟨rfl, rfl⟩

/-- C8 (amended): the displayed round count is an independent counter, not
derived from the log: `executeNegotiation` hard-codes
`currentOffer.rounds := 3` while leaving `negotiationLog` untouched on
every path, and `getActiveDeals` projects `currentOffer?.rounds || 0`
straight from the offer. -/
theorem c8_rounds_amended (s : ServiceWorker.WSession) (rf : ServiceWorker.RealFlow) :
    (ServiceWorker.runWorkerNegotiation s rf).1.currentOffer.map Offer.rounds = some 3 ∧
    (ServiceWorker.runWorkerNegotiation s rf).1.negotiationLog = s.negotiationLog ∧
    (∀ sessions : List ServiceWorker.WSession,
      ∀ v ∈ ServiceWorker.getActiveDeals sessions,
        ∃ s' ∈ sessions, v.rounds = (s'.currentOffer.map Offer.rounds).getD 0) := by
  refine ⟨?_, ?_, ?_⟩
  · cases rf with
    | ok ep fp => rfl
    | fail => rfl
  · cases rf with
    | ok ep fp => rfl
    | fail => rfl
  · intro sessions v hv
    rcases List.mem_map.1 hv with ⟨s', hs', rfl⟩
    exact ⟨s', (List.mem_filter.1 hs').1, rfl⟩

/-- Closed witness for the amended C8 at a concrete session and deal list. -/
theorem c8_witness :
    (ServiceWorker.runWorkerNegotiation prefWorkerSession
        ServiceWorker.RealFlow.fail).1.currentOffer.map Offer.rounds = some 3 ∧
    (ServiceWorker.runWorkerNegotiation prefWorkerSession
        ServiceWorker.RealFlow.fail).1.negotiationLog =
      prefWorkerSession.negotiationLog ∧
    (∃ s' ∈ [freshWorkerSession],
      ({ sessionId := 0, originalPrice := 100, currentOffer := 100
         status := "negotiating", rounds := 0 } : ServiceWorker.DealView).rounds =
        (s'.currentOffer.map Offer.rounds).getD 0) :=
  ⟨(c8_rounds_amended prefWorkerSession ServiceWorker.RealFlow.fail).1,
   (c8_rounds_amended prefWorkerSession ServiceWorker.RealFlow.fail).2.1,
   (c8_rounds_amended prefWorkerSession ServiceWorker.RealFlow.fail).2.2
     [freshWorkerSession] _ (by decide)⟩

/-- C8 counterexample: a completed fresh-session run carries
`currentOffer.rounds = 3` while `negotiationLog.length = 0`: the round
count exceeds the log length, refuting the claimed bound. -/
theorem c8_counterexample :
    (ServiceWorker.runWorkerNegotiation freshWorkerSession
        ServiceWorker.RealFlow.fail).1.currentOffer.map Offer.rounds = some 3 ∧
    (ServiceWorker.runWorkerNegotiation freshWorkerSession
        ServiceWorker.RealFlow.fail).1.negotiationLog.length = 0 ∧
    ¬ (3 ≤ 0) :=
  ⟨rfl, rfl, by decide⟩

/-! ### Orchestrator concurrency (claims C1 and C2) -/

theorem mem_updateSessionMap {l : List ServiceWorker.WSession}
    {s x : ServiceWorker.WSession}
    (hx : x ∈ ServiceWorker.updateSessionMap l s) : x ∈ l ∨ x = s := by
  unfold ServiceWorker.updateSessionMap at hx
  split at hx
  · rcases List.mem_map.1 hx with ⟨y, hy, he⟩
    by_cases hc : (y.sid == s.sid) = true
    · rw [if_pos hc] at he
      exact Or.inr he.symm
    · rw [if_neg hc] at he
      exact Or.inl (he ▸ hy)
  · rcases List.mem_append.1 hx with h | h
    · exact Or.inl h
    · exact Or.inr (List.mem_singleton.1 h)

theorem taskStep_sid (s : ServiceWorker.WSession) (t : ServiceWorker.WTask) :
    (ServiceWorker.taskStep s t).1.sid = s.sid := by
  rcases t with ⟨sid, pc, rf⟩
  cases pc
  · rfl
  · cases rf <;> rfl
  · rfl

theorem taskStep_task_sid (s : ServiceWorker.WSession) (t t' : ServiceWorker.WTask)
    (h : (ServiceWorker.taskStep s t).2.1 = some t') : t'.sid = t.sid := by
  rcases t with ⟨sid, pc, rf⟩
  cases pc
  · cases h
    rfl
  · cases rf
    · simp [ServiceWorker.taskStep] at h
    · cases h
      rfl
  · simp [ServiceWorker.taskStep] at h

theorem wfind?_update_self (l : List ServiceWorker.WSession)
    (s : ServiceWorker.WSession)
    (h : l.any (fun t => t.sid == s.sid) = true) :
    (l.map (fun t => if t.sid == s.sid then s else t)).find?
      (fun t => t.sid == s.sid) = some s := by
  induction l with
  | nil => simp at h
  | cons hd tl ih =>
      rw [List.any_cons] at h
      simp only [List.map_cons]
      by_cases hhd : (hd.sid == s.sid) = true
      · rw [if_pos hhd]
        exact List.find?_cons_of_pos _ (beq_self_eq_true s.sid)
      · have htl : tl.any (fun t => t.sid == s.sid) = true := by
          revert h
          cases hb : hd.sid == s.sid
          · simp
          · exact absurd hb hhd
        rw [if_neg hhd]
        have hskip : List.find? (fun t => t.sid == s.sid)
            (hd :: List.map (fun t => if t.sid == s.sid then s else t) tl) =
            List.find? (fun t => t.sid == s.sid)
              (List.map (fun t => if t.sid == s.sid then s else t) tl) :=
          List.find?_cons_of_neg _ hhd
        rw [hskip]
        exact ih htl

theorem wfind?_append_self (l : List ServiceWorker.WSession)
    (s : ServiceWorker.WSession)
    (h : l.any (fun t => t.sid == s.sid) = false) :
    (l ++ [s]).find? (fun t => t.sid == s.sid) = some s := by
  rw [List.find?_append]
  have hnone : l.find? (fun t => t.sid == s.sid) = none := by
    refine List.find?_eq_none.2 ?_
    intro x hx hpx
    have hany : l.any (fun t => t.sid == s.sid) = true :=
      List.any_eq_true.2 ⟨x, hx, hpx⟩
    rw [h] at hany
    cases hany
  rw [hnone]
  simp

theorem lookupSession_update_self (l : List ServiceWorker.WSession)
    (s : ServiceWorker.WSession) :
    ServiceWorker.lookupSession (ServiceWorker.updateSessionMap l s) s.sid = some s := by
  unfold ServiceWorker.lookupSession ServiceWorker.updateSessionMap
  split
  · rename_i h
    exact wfind?_update_self l s h
  · rename_i h
    have h' : l.any (fun t => t.sid == s.sid) = false := by
      revert h
      cases l.any (fun t => t.sid == s.sid) <;> simp
    exact wfind?_append_self l s h'

theorem lookupSession_mem (l : List ServiceWorker.WSession) (sid : Nat)
    (s : ServiceWorker.WSession)
    (h : ServiceWorker.lookupSession l sid = some s) : s ∈ l :=
  List.mem_of_find?_eq_some h

/-- C1 (amended): the only protection against duplicate loops is id
freshness: `startNegotiation` always generates a fresh session id — in
every reachable orchestrator state, every stored session and every
in-flight task carries an id strictly below the next fresh id, so a start
request can never attach to a session id that already has an in-flight
round loop.  No per-session in-flight guard exists, and a
`deal_action: counter` (or retry) spawns a second concurrent loop for an
existing session id — see the counterexample. -/
theorem c1_fresh_ids_amended (st : ServiceWorker.WorkerState)
    (h : ServiceWorker.WReachable st) :
    (∀ s ∈ st.sessions, s.sid < st.nextId) ∧
    (∀ t ∈ st.tasks, t.sid < st.nextId) := by
  induction h with
  | refl =>
      exact ⟨fun s hs => absurd hs (List.not_mem_nil s),
             fun t ht => absurd ht (List.not_mem_nil t)⟩
  | tail hab hbc ih =>
      obtain ⟨ihs, iht⟩ := ih
      cases hbc with
      | start price currency prefs rf =>
          refine ⟨?_, ?_⟩
          · intro s hs
            rcases mem_updateSessionMap hs with hmem | heq
            · exact Nat.lt_succ_of_lt (ihs s hmem)
            · subst heq
              exact Nat.lt_succ_self _
          · intro t ht
            rcases List.mem_append.1 ht with hmem | hnew
            · exact Nat.lt_succ_of_lt (iht t hmem)
            · rw [List.mem_singleton.1 hnew]
              exact Nat.lt_succ_self _
      | rejectAction sid s hlk =>
          refine ⟨?_, iht⟩
          intro x hx
          rcases mem_updateSessionMap hx with hmem | heq
          · exact ihs x hmem
          · subst heq
            exact ihs s (lookupSession_mem _ _ _ hlk)
      | counterAction sid s rf hlk =>
          refine ⟨ihs, ?_⟩
          intro t ht
          rcases List.mem_append.1 ht with hmem | hnew
          · exact iht t hmem
          · rw [List.mem_singleton.1 hnew]
            exact ihs s (lookupSession_mem _ _ _ hlk)
      | retryAction sid s rf hlk =>
          refine ⟨?_, ?_⟩
          · intro x hx
            rcases mem_updateSessionMap hx with hmem | heq
            · exact ihs x hmem
            · subst heq
              exact ihs s (lookupSession_mem _ _ _ hlk)
          · intro t ht
            rcases List.mem_append.1 ht with hmem | hnew
            · exact iht t hmem
            · rw [List.mem_singleton.1 hnew]
              exact ihs s (lookupSession_mem _ _ _ hlk)
      | taskRun i t s hget hlk =>
          refine ⟨?_, ?_⟩
          · intro x hx
            rcases mem_updateSessionMap hx with hmem | heq
            · exact ihs x hmem
            · subst heq
              rw [taskStep_sid s t]
              exact ihs s (lookupSession_mem _ _ _ hlk)
          · intro u hu
            cases hcont : (ServiceWorker.taskStep s t).2.1 with
            | none =>
                rw [show (ServiceWorker.taskRunResult _ i t s).tasks =
                      ServiceWorker.updateTasks _ i
                        ((ServiceWorker.taskStep s t).2.1) from rfl, hcont] at hu
                exact iht u (List.mem_of_mem_eraseIdx hu)
            | some t' =>
                rw [show (ServiceWorker.taskRunResult _ i t s).tasks =
                      ServiceWorker.updateTasks _ i
                        ((ServiceWorker.taskStep s t).2.1) from rfl, hcont] at hu
                rcases List.mem_or_eq_of_mem_set hu with hmem | heq
                · exact iht u hmem
                · rw [heq, taskStep_task_sid s t t' hcont]
                  exact iht t (List.get?_mem hget)

/-- Closed witness for the amended C1: the freshness invariant at the
state reached by one handled start request. -/
theorem c1_witness :
    (∀ s ∈ traceAfterStart.sessions, s.sid < traceAfterStart.nextId) ∧
    (∀ t ∈ traceAfterStart.tasks, t.sid < traceAfterStart.nextId) :=
  c1_fresh_ids_amended traceAfterStart
    (Relation.ReflTransGen.single
      (ServiceWorker.WStep.start ServiceWorker.workerInit 100 "USD" none
        ServiceWorker.RealFlow.fail))

/-- C1 counterexample: a reachable orchestrator state holds TWO in-flight
round-loop tasks for the same session id 0 — a start request spawned the
first loop, and a `deal_action: counter` for the same session spawned a
second concurrent one; the second request was neither rejected nor
queued. -/
theorem c1_counterexample :
    ServiceWorker.WReachable traceTwoLoops ∧
    traceTwoLoops.tasks.map (fun t => t.sid) = [0, 0] ∧
    ¬ (traceTwoLoops.tasks.map (fun t => t.sid)).Nodup := by
  refine ⟨?_, rfl, by decide⟩
  have t1 : ServiceWorker.WReachable traceAfterStart :=
    Relation.ReflTransGen.single
      (ServiceWorker.WStep.start ServiceWorker.workerInit 100 "USD" none
        ServiceWorker.RealFlow.fail)
  have t2 : ServiceWorker.WReachable traceAfterActivate :=
    t1.tail (ServiceWorker.WStep.taskRun traceAfterStart 0 traceTask0
      freshWorkerSession rfl rfl)
  exact t2.tail (ServiceWorker.WStep.counterAction traceAfterActivate 0
    traceActiveSession ServiceWorker.RealFlow.fail rfl)

/-- C2 (amended): in-flight tasks perform no last-writer check: the
terminal write of the fallback block sets the session to `completed`
unconditionally — in particular a task resuming on a session whose status
is already the terminal `failed` (a manual reject) overwrites the user's
decision instead of discarding its result.  The operator retry behaves as
the claim's exception describes: it resets the found session to `pending`
with a cleared log. -/
theorem c2_terminal_overwrite_amended (s : ServiceWorker.WSession)
    (rf : ServiceWorker.RealFlow) (_hst : s.status = SessionStatus.failed)
    (st : ServiceWorker.WorkerState) (s' : ServiceWorker.WSession) :
    (ServiceWorker.taskStep s
        { sid := s.sid, pc := ServiceWorker.TaskPc.fallbackCompute
          realFlow := rf }).1.status = SessionStatus.completed ∧
    ServiceWorker.lookupSession (ServiceWorker.retryResult st s' rf).sessions s'.sid =
      some { s' with status := SessionStatus.pending, negotiationLog := [] } := by
  refine ⟨rfl, ?_⟩
  exact lookupSession_update_self st.sessions
    { s' with status := SessionStatus.pending, negotiationLog := [] }

/-- Closed witness for the amended C2 at a concrete rejected session. -/
theorem c2_witness :
    traceFailedSession.status = SessionStatus.failed ∧
    ((ServiceWorker.taskStep traceFailedSession
        { sid := traceFailedSession.sid, pc := ServiceWorker.TaskPc.fallbackCompute
          realFlow := ServiceWorker.RealFlow.fail }).1.status =
      SessionStatus.completed ∧
    ServiceWorker.lookupSession
        (ServiceWorker.retryResult ServiceWorker.workerInit freshWorkerSession
          ServiceWorker.RealFlow.fail).sessions freshWorkerSession.sid =
      some { freshWorkerSession with
             status := SessionStatus.pending, negotiationLog := [] }) :=
  ⟨rfl, c2_terminal_overwrite_amended traceFailedSession ServiceWorker.RealFlow.fail rfl
    ServiceWorker.workerInit freshWorkerSession⟩

/-- C2 counterexample: a reachable trace in which the user manually
rejects session 0 (persisted status `failed`, a terminal state) while its
negotiation task is suspended, after which task-only steps — no operator
retry — finish the task and overwrite the terminal status with
`completed`: the in-flight task neither re-checks the persisted status nor
discards its result. -/
theorem c2_counterexample :
    ServiceWorker.WReachable traceAfterReject ∧
    (ServiceWorker.lookupSession traceAfterReject.sessions 0).map
        (fun s => s.status) = some SessionStatus.failed ∧
    Relation.ReflTransGen ServiceWorker.TaskOnlyStep traceAfterReject traceOverwritten ∧
    (ServiceWorker.lookupSession traceOverwritten.sessions 0).map
        (fun s => s.status) = some SessionStatus.completed := by
  refine ⟨?_, rfl, ?_, rfl⟩
  · have t1 : ServiceWorker.WReachable traceAfterStart :=
      Relation.ReflTransGen.single
        (ServiceWorker.WStep.start ServiceWorker.workerInit 100 "USD" none
          ServiceWorker.RealFlow.fail)
    have t2 : ServiceWorker.WReachable traceAfterActivate :=
      t1.tail (ServiceWorker.WStep.taskRun traceAfterStart 0 traceTask0
        freshWorkerSession rfl rfl)
    exact t2.tail (ServiceWorker.WStep.rejectAction traceAfterActivate 0
      traceActiveSession rfl)
  · have u1 : Relation.ReflTransGen ServiceWorker.TaskOnlyStep
        traceAfterReject traceAfterDiscover :=
      Relation.ReflTransGen.single
        (ServiceWorker.TaskOnlyStep.taskRun traceAfterReject 0 traceTaskDiscover
          traceFailedSession rfl rfl)
    exact u1.tail (ServiceWorker.TaskOnlyStep.taskRun traceAfterDiscover 0
      traceTaskFallback traceFailedSession rfl rfl)

/-! ### Seller discovery (claim C10) -/

theorem searchSellers_all_none (attempts : List (Option (List DiscoveryClient.RawSeller)))
    (h : ∀ a ∈ attempts, a = none) :
    DiscoveryClient.searchSellers attempts = none := by
  induction attempts with
  | nil => rfl
  | cons hd tl ih =>
      have hhd := h hd (List.mem_cons_self hd tl)
      subst hhd
      exact ih (fun a ha => h a (List.mem_cons_of_mem _ ha))

theorem demoScore_le (c : DiscoveryClient.SellerSearchCriteria) :
    DiscoveryClient.calculateSellerScore DiscoveryClient.demoSeller2 c ≤
      DiscoveryClient.calculateSellerScore DiscoveryClient.demoSeller1 c := by
  have hcap1 : (List.filter
      (fun cap => (["initiateNegotiation", "makeOffer", "getProductInfo",
          "acceptDeal"] : List String).contains cap)
      ["getProductInfo", "checkDealStatus", "acceptDeal"]).length = 2 := by decide
  have hcap2 : (List.filter
      (fun cap => (["initiateNegotiation", "makeOffer",
          "acceptDeal"] : List String).contains cap)
      ["getProductInfo", "checkDealStatus", "acceptDeal"]).length = 1 := by decide
  have hrts1 : max (0:ℚ) (1 - 2000/10000) = 1 - 2000/10000 :=
    max_eq_right (by norm_num)
  have hrts2 : max (0:ℚ) (1 - 3500/10000) = 1 - 3500/10000 :=
    max_eq_right (by norm_num)
  unfold DiscoveryClient.calculateSellerScore
  simp only [DiscoveryClient.demoSeller1, DiscoveryClient.demoSeller2]
  rw [hcap1, hcap2, hrts1, hrts2]
  rcases hsp : c.specialty with _ | sp
  · simp only [hsp]
    norm_num
  · simp only [hsp]
    split_ifs <;> norm_num

theorem sortSellers_nil (c : DiscoveryClient.SellerSearchCriteria) :
    DiscoveryClient.sortSellers [] c = [] := rfl

theorem sortSellers_singleton (c : DiscoveryClient.SellerSearchCriteria)
    (x : DiscoveryClient.SellerEndpoint) :
    DiscoveryClient.sortSellers [x] c = [x] := rfl

theorem sortSellers_demo_pair (c : DiscoveryClient.SellerSearchCriteria) :
    DiscoveryClient.sortSellers
        [DiscoveryClient.demoSeller1, DiscoveryClient.demoSeller2] c =
      [DiscoveryClient.demoSeller1, DiscoveryClient.demoSeller2] := by
  unfold DiscoveryClient.sortSellers
  simp only [List.insertionSort, List.orderedInsert]
  rw [if_pos (demoScore_le c)]

theorem getFallbackSellers_sorted (c : DiscoveryClient.SellerSearchCriteria) :
    DiscoveryClient.getFallbackSellers c =
      DiscoveryClient.sortSellers
        (DiscoveryClient.filterSellers DiscoveryClient.fallbackSellers c) c := by
  unfold DiscoveryClient.getFallbackSellers DiscoveryClient.filterSellers
    DiscoveryClient.fallbackSellers
  by_cases h1 : DiscoveryClient.passesFilter c DiscoveryClient.demoSeller1 = true
  · by_cases h2 : DiscoveryClient.passesFilter c DiscoveryClient.demoSeller2 = true
    · rw [List.filter_cons_of_pos h1, List.filter_cons_of_pos h2, List.filter_nil,
        sortSellers_demo_pair]
    · rw [List.filter_cons_of_pos h1, List.filter_cons_of_neg h2, List.filter_nil,
        sortSellers_singleton]
  · by_cases h2 : DiscoveryClient.passesFilter c DiscoveryClient.demoSeller2 = true
    · rw [List.filter_cons_of_neg h1, List.filter_cons_of_pos h2, List.filter_nil,
        sortSellers_singleton]
    · rw [List.filter_cons_of_neg h1, List.filter_cons_of_neg h2, List.filter_nil,
        sortSellers_nil]

/-- C10: the built-in demo fallback sellers are substituted only once every
registry attempt has failed, and what is substituted is exactly the result
of running them through the same filter/sort pipeline; a successful
registry response — in particular one whose sellers all fail the filter —
propagates as the (possibly empty) filtered and sorted registry list,
never silently replaced by fallback data. -/
theorem c10_fallback_and_empty (c : DiscoveryClient.SellerSearchCriteria)
    (attempts : List (Option (List DiscoveryClient.RawSeller))) :
    ((∀ a ∈ attempts, a = none) →
      DiscoveryClient.findSellers none c attempts =
        (if 0 < (DiscoveryClient.getFallbackSellers c).length
         then some (DiscoveryClient.getFallbackSellers c) else none)) ∧
    (DiscoveryClient.getFallbackSellers c =
      DiscoveryClient.sortSellers
        (DiscoveryClient.filterSellers DiscoveryClient.fallbackSellers c) c) ∧
    (∀ sellers, DiscoveryClient.searchSellers attempts = some sellers →
      DiscoveryClient.findSellers none c attempts =
        some (DiscoveryClient.sortSellers
          (DiscoveryClient.filterSellers sellers c) c)) ∧
    (∀ sellers, DiscoveryClient.searchSellers attempts = some sellers →
      DiscoveryClient.filterSellers sellers c = [] →
      DiscoveryClient.findSellers none c attempts = some []) := by
  refine ⟨?_, getFallbackSellers_sorted c, ?_, ?_⟩
  · intro hall
    unfold DiscoveryClient.findSellers
    rw [searchSellers_all_none attempts hall]
  · intro sellers hs
    unfold DiscoveryClient.findSellers
    rw [hs]
  · intro sellers hs hf
    unfold DiscoveryClient.findSellers
    rw [hs]
    dsimp only
    rw [hf]
    rfl

/-- Closed witness for C10: with every registry attempt failing the
filtered fallback sellers are returned; with a reachable registry
returning zero sellers the empty list is returned, not the fallback. -/
theorem c10_witness :
    DiscoveryClient.findSellers none demoCriteria [none, none, none] =
      some (DiscoveryClient.getFallbackSellers demoCriteria) ∧
    DiscoveryClient.findSellers none demoCriteria [some []] = some [] := by
  constructor
  · have h1 := (c10_fallback_and_empty demoCriteria [none, none, none]).1 (by decide)
    rw [h1]
    rw [if_pos (by decide : 0 < (DiscoveryClient.getFallbackSellers demoCriteria).length)]
  · exact (c10_fallback_and_empty demoCriteria [some []]).2.2.2 [] rfl rfl

end Cas
